import Mathlib

/-
Shallow embedding of `rendering.py` (repository dcjvliet/rendering).

The native window collaborator (`window.dll`: window creation, `draw_pixel`,
`fill_rect`, message loop) is out of scope; drawing is modelled as the list of
commands a `display` call hands to the surface, in order.  A `setPixel`
command models `window_lib.draw_pixel(hwnd, x, y, colorref)` and a `fillRect`
command models `window_lib.fill_rect(hwnd, x, y, w, h, colorref)`; the window
handle itself carries no information relevant to the claims and is omitted.

Python numbers that may be `int` or `float` are modelled by `PyNum` (a float
is modelled as an exact rational, which is faithful for every literal used in
the claims).  Exceptions (`ValueError` from validation, `TypeError` from bit
operations on floats) are modelled with `Except Err`.  The unbounded `while`
loop of `Line.display` is modelled with explicit fuel: a result `none` means
the loop has not finished within the given fuel.  The screen grid is the
integer grid, matching every coordinate the claims quantify over.
-/

namespace Rendering

/-- A Python numeric argument: either an `int` or a `float`.  Floats are
modelled as exact rationals. -/
inductive PyNum where
  | int (z : ℤ)
  | float (q : ℚ)
deriving DecidableEq, Repr

/-- Numeric value of a `PyNum` (Python compares `int` and `float` by value). -/
def PyNum.val : PyNum → ℚ
  | .int z => (z : ℚ)
  | .float q => q

/-- Model of Python `isinstance(v, int)`. -/
def PyNum.isInt : PyNum → Bool
  | .int _ => true
  | .float _ => false

/-- Exceptions raised by the constructors: `valueError` models the explicit
`raise ValueError(...)` validations (the spec calls these `ValidationError`),
`typeError` models the `TypeError` Python raises when `<<` or `|` is applied
to a `float`. -/
inductive Err where
  | valueError
  | typeError
deriving DecidableEq, Repr

/-- A drawing command handed to the surface, in emission order. -/
inductive Cmd where
  | setPixel (x y : ℤ) (color : ℕ)
  | fillRect (x y w h : ℤ) (color : ℕ)
deriving DecidableEq, Repr

/-- Model of class `Color` after a successful `__init__`: `r`, `g`, `b` are
known to be ints (a float channel makes `generate_colorref` raise before the
object is returned), `a` keeps the raw fourth entry when one was given
(`self.a`; it may be a float), `color` is the stored input sequence
(`self.color`), and `colorref` the packed value (`self.colorref`). -/
structure Color where
  r : ℤ
  g : ℤ
  b : ℤ
  a : Option PyNum
  color : List PyNum
  colorref : ℕ
deriving DecidableEq, Repr

/-- Model of `Color.generate_colorref`: `ctypes.c_uint32((b << 16) | (g << 8) | r)`.
Every reachable call site passes channel values already validated to lie in
`[0, 255]`, so the Python big-int expression coincides with the natural-number
one below; `c_uint32` truncates modulo `2 ^ 32`. -/
def generate_colorref (r g b : ℤ) : ℕ :=
  (((b.toNat <<< 16) ||| (g.toNat <<< 8)) ||| r.toNat) % 2 ^ 32

/-- The final assignments of `Color.__init__`: evaluating
`self.generate_colorref(self.r, self.g, self.b)` raises `TypeError` when any
of `r`, `g`, `b` is a float (Python rejects `<<` and `|` on floats); the
alpha entry never enters that expression, it is only stored. -/
def packChannels (c0 c1 c2 : PyNum) (a : Option PyNum) (orig : List PyNum) :
    Except Err Color :=
  match c0, c1, c2 with
  | .int ri, .int gi, .int bi =>
      .ok ⟨ri, gi, bi, a, orig, generate_colorref ri gi bi⟩
  | _, _, _ => .error .typeError

/-- Model of `Color.__init__`.  Validation follows the source: the length must
be 3 or 4; `color[0]`, `color[1]`, `color[2]` and (when present) `color[3]`
must lie in `[0, 255]` by value; then the fields are assigned and the packed
value computed (`packChannels`). -/
def mkColor (color : List PyNum) : Except Err Color :=
  match color with
  | [c0, c1, c2] =>
    if c0.val > 255 ∨ c0.val < 0 ∨ c1.val > 255 ∨ c1.val < 0 ∨ c2.val > 255 ∨ c2.val < 0 then
      .error .valueError
    else
      packChannels c0 c1 c2 none color
  | [c0, c1, c2, c3] =>
    if c0.val > 255 ∨ c0.val < 0 ∨ c1.val > 255 ∨ c1.val < 0 ∨ c2.val > 255 ∨ c2.val < 0 then
      .error .valueError
    else if c3.val > 255 ∨ c3.val < 0 then
      .error .valueError
    else
      packChannels c0 c1 c2 (some c3) color
  | _ => .error .valueError

/-- Model of Python `str.upper` on the ASCII range (the only range a hex code
can contain once validated; on other characters the check fails anyway). -/
def pyUpper (c : Char) : Char :=
  if 'a' ≤ c ∧ c ≤ 'z' then Char.ofNat (c.toNat - 32) else c

/-- Test from `Color.from_hex_code`: `char.upper() in set('0123456789ABCDEF')`. -/
def isHexChar (c : Char) : Bool :=
  "0123456789ABCDEF".toList.contains (pyUpper c)

/-- Value of a single hex digit, as `int(-, 16)` assigns it.  `from_hex_code`
only reaches it on characters that passed `isHexChar`. -/
def hexVal (c : Char) : ℕ :=
  if '0' ≤ c ∧ c ≤ '9' then c.toNat - 48
  else if 'a' ≤ c ∧ c ≤ 'f' then c.toNat - 87
  else if 'A' ≤ c ∧ c ≤ 'F' then c.toNat - 55
  else 0

/-- Model of `int(hex_code[i:i+2], 16)`: the two-character slice starting at
`i` read as a base-16 number. -/
def hexPair (s : List Char) (i : ℕ) : ℤ :=
  16 * (hexVal (s.getD i '0') : ℤ) + (hexVal (s.getD (i + 1) '0') : ℤ)

/-- Model of `Color.from_hex_code`: length must be 6 or 8, every character a
hex digit; then two hex digits per channel (for length 8 the last two are the
alpha), handed to `Color.__init__` as ints. -/
def from_hex_code (hex_code : List Char) : Except Err Color :=
  if hex_code.length ≠ 8 ∧ hex_code.length ≠ 6 then .error .valueError
  else if ¬ (hex_code.all isHexChar) then .error .valueError
  else if hex_code.length = 8 then
    mkColor [.int (hexPair hex_code 0), .int (hexPair hex_code 2),
             .int (hexPair hex_code 4), .int (hexPair hex_code 6)]
  else
    mkColor [.int (hexPair hex_code 0), .int (hexPair hex_code 2),
             .int (hexPair hex_code 4)]

/-- Model of class `Coordinate`: a point of the integer screen grid. -/
structure Coordinate where
  x : ℤ
  y : ℤ
deriving DecidableEq, Repr

/-- Model of `Coordinate.__init__`: both components must be non-negative. -/
def mkCoordinate (x y : ℤ) : Except Err Coordinate :=
  if x < 0 ∨ y < 0 then .error .valueError else .ok ⟨x, y⟩

/-- Model of class `Line` after a successful `__init__`.  The `master` window
is omitted (see the file comment); the unused `antialias` flag is not stored
by the source either.  `slope` is `none` exactly when the division
`(end.y - start.y) / (end.x - start.x)` raises `ZeroDivisionError`. -/
structure Line where
  start : Coordinate
  endPt : Coordinate
  color : Color
  width : ℤ
  radius : ℤ
  slope : Option ℚ
deriving DecidableEq, Repr

/-- Model of `Line.__init__`: `width` must be a positive `int`; then
`radius = width // 2` and the slope is computed, with `ZeroDivisionError`
caught and turned into the sentinel `none`. -/
def mkLine (start endPt : Coordinate) (color : Color) (width : PyNum) :
    Except Err Line :=
  if width.val ≤ 0 ∨ width.isInt = false then .error .valueError
  else
    match width with
    | .int w =>
        .ok ⟨start, endPt, color, w, w / 2,
          if (endPt.x : ℚ) - (start.x : ℚ) = 0 then none
          else some (((endPt.y : ℚ) - (start.y : ℚ)) / ((endPt.x : ℚ) - (start.x : ℚ)))⟩
    | .float _ => .error .valueError

/-- Model of Python built-in `round` on an exact value: round half to even. -/
def pyRound (q : ℚ) : ℤ :=
  let f : ℤ := ⌊q⌋
  if q - f < 1 / 2 then f
  else if q - f > 1 / 2 then f + 1
  else if f % 2 = 0 then f else f + 1

/-- The coordinates of one pass of the inner `for offset in range(-radius,
radius + 1)` loop of `Line.display`: the source appends `Coordinate(x +
offset, y)` when `slope > 1` and `Coordinate(x, y + offset)` otherwise, with
`y` the value recomputed from the line equation (the same for every offset of
the pass). -/
def bandAt (slope : ℚ) (radius x yLine : ℤ) : List (ℤ × ℤ) :=
  (List.range (2 * radius + 1).toNat).map fun (i : ℕ) =>
    if slope > 1 then (x + ((i : ℤ) - radius), yLine)
    else (x, yLine + ((i : ℤ) - radius))

/-- Model of the `while True` stepper loop of `Line.display`, with explicit
fuel (`none` = the loop has not finished within the fuel; `some (.error e)` =
an exception escaped the loop).  Each iteration emits the band of the current
`x` (see `bandAt`), recomputing `y` from the line equation inside the band
loop exactly as the source does (so the Bresenham `y` increment of the
previous iteration is overwritten).  Every band pixel is built through
`Coordinate.__init__`, which raises `ValueError` when a component is
negative, so a band containing a negative coordinate aborts the loop with
that error.  The loop then breaks once `(x, y)` equals `end`, and otherwise
applies the two step guards.  `two_error` was computed once before the loop
in the source and never updated, so it is a constant parameter here. -/
def stepLoop (slope : ℚ) (radius startX startY endX endY step_x step_y dx dy two_error : ℤ) :
    ℕ → ℤ → ℤ → ℤ → List (ℤ × ℤ) → Option (Except Err (List (ℤ × ℤ)))
  | 0, _, _, _, _ => none
  | fuel + 1, x, _y, error, coords =>
      let yLine : ℤ := pyRound (slope * ((x : ℚ) - (startX : ℚ)) + (startY : ℚ))
      let band : List (ℤ × ℤ) := bandAt slope radius x yLine
      if band.any fun c => decide (c.1 < 0 ∨ c.2 < 0) then
        some (.error .valueError)
      else
        let coords' := coords ++ band
        let y' := yLine
        if x = endX ∧ y' = endY then some (.ok coords')
        else
          let ex : ℤ × ℤ := if two_error > -dy then (error - dy, x + step_x) else (error, x)
          let ey : ℤ × ℤ := if two_error < dx then (ex.1 + dx, y' + step_y) else (ex.1, y')
          stepLoop slope radius startX startY endX endY step_x step_y dx dy two_error
            fuel ex.2 ey.2 ey.1 coords'

/-- Model of `Line.display`.  Dispatch follows the source: a defined, non-zero
slope enters the stepper (whose accumulated coordinates are then drawn with
`draw_pixel`, one `setPixel` command each — only reached when the loop broke
without raising); an undefined slope takes the vertical fast path and a zero
slope the horizontal fast path, each a single `fill_rect` call with the
signed extent the source passes and no `Coordinate` construction.  The fuel
bounds the stepper only; the fast paths ignore it. -/
def Line.display (l : Line) (fuel : ℕ) : Option (Except Err (List Cmd)) :=
  match l.slope with
  | none =>
      some (.ok
        [Cmd.fillRect l.start.x l.start.y l.width (l.endPt.y - l.start.y) l.color.colorref])
  | some s =>
      if s = 0 then
        some (.ok
          [Cmd.fillRect l.start.x l.start.y (l.endPt.x - l.start.x) l.width l.color.colorref])
      else
        let dx := |l.start.x - l.endPt.x|
        let dy := |l.start.y - l.endPt.y|
        let step_x : ℤ := if l.start.x < l.endPt.x then 1 else -1
        let step_y : ℤ := if l.start.y < l.endPt.y then 1 else -1
        let error := dx - dy
        let two_error := 2 * error
        match stepLoop s l.radius l.start.x l.start.y l.endPt.x l.endPt.y step_x step_y
            dx dy two_error fuel l.start.x l.start.y error [] with
        | none => none
        | some (.error e) => some (.error e)
        | some (.ok coords) =>
            some (.ok (coords.map fun c => Cmd.setPixel c.1 c.2 l.color.colorref))

/-- Model of class `Rect` after a successful `__init__`. -/
structure Rect where
  width : ℤ
  height : ℤ
  border_color : Color
  borderwidth : ℤ
  antialiasing : Bool
  fill : Bool
  fill_color : Color
  top_left : Coordinate
  top_right : Coordinate
  bottom_left : Coordinate
  bottom_right : Coordinate
  top_edge : Line
  bottom_edge : Line
  left_edge : Line
  right_edge : Line
deriving DecidableEq, Repr

/-- Model of `Rect.__init__`: validate `width`, `height`, `borderwidth` in
order; then build the three derived corners through the validating
`Coordinate` constructor and the four edges through the `Line` constructor,
all sharing the border color and width. -/
def mkRect (top_left_corner : Coordinate) (width height : PyNum) (border_color : Color)
    (borderwidth : PyNum) (antialiasing : Bool) (fill : Bool) (fill_color : Color) :
    Except Err Rect :=
  if width.val ≤ 0 ∨ width.isInt = false then .error .valueError
  else if height.val ≤ 0 ∨ height.isInt = false then .error .valueError
  else if borderwidth.val ≤ 0 ∨ borderwidth.isInt = false then .error .valueError
  else
    match width, height, borderwidth with
    | .int w, .int h, .int bw => do
        let tr ← mkCoordinate (top_left_corner.x + w) top_left_corner.y
        let bl ← mkCoordinate top_left_corner.x (top_left_corner.y + h)
        let br ← mkCoordinate (top_left_corner.x + w) (top_left_corner.y + h)
        let te ← mkLine top_left_corner tr border_color (.int bw)
        let be ← mkLine bl br border_color (.int bw)
        let le ← mkLine top_left_corner bl border_color (.int bw)
        let re ← mkLine tr br border_color (.int bw)
        .ok ⟨w, h, border_color, bw, antialiasing, fill, fill_color,
             top_left_corner, tr, bl, br, te, be, le, re⟩
    | _, _, _ => .error .valueError

/-- Sequencing of two drawing statements, each of which may not finish within
the fuel (`none`) or may raise (`some (.error e)`): Python runs the first
statement to completion before the second, so non-termination or an exception
in the first prevents the second from running at all. -/
def runBind {α β : Type} (x : Option (Except Err α)) (f : α → Option (Except Err β)) :
    Option (Except Err β) :=
  match x with
  | none => none
  | some (.error e) => some (.error e)
  | some (.ok a) => f a

/-- Model of `Rect.display`: the four edges in source order, then the
bottom-right corner patch, then the interior fill when the flag is set. -/
def Rect.display (r : Rect) (fuel : ℕ) : Option (Except Err (List Cmd)) :=
  runBind (r.top_edge.display fuel) fun te =>
  runBind (r.bottom_edge.display fuel) fun be =>
  runBind (r.left_edge.display fuel) fun le =>
  runBind (r.right_edge.display fuel) fun re =>
  some (.ok (te ++ be ++ le ++ re ++
    [Cmd.fillRect r.bottom_right.x r.bottom_right.y r.borderwidth r.borderwidth
      r.border_color.colorref] ++
    (if r.fill then
      [Cmd.fillRect (r.top_left.x + r.borderwidth) (r.top_left.y + r.borderwidth)
        (r.width - r.borderwidth) (r.height - r.borderwidth) r.fill_color.colorref]
     else [])))

/-- Model of `Rect.change_fill`: `self.fill = not self.fill`, the only write
the method performs; it draws nothing. -/
def Rect.change_fill (r : Rect) : Rect :=
  { r with fill := !r.fill }

/-- Specification-side description of one thickness band (named after the
spec's words): the `2 * radius + 1` pixels centered on `center`, offset along
the x axis when `alongX` holds and along the y axis otherwise. -/
def axisBand (center : ℤ × ℤ) (radius : ℤ) (alongX : Bool) : List (ℤ × ℤ) :=
  (List.range (2 * radius + 1).toNat).map fun (i : ℕ) =>
    if alongX then (center.1 + ((i : ℤ) - radius), center.2)
    else (center.1, center.2 + ((i : ℤ) - radius))

/-- The stepped positions of the `Line.display` loop: the `x` values the loop
visits, produced by the same break test and the same (stale) `two_error` step
guard as `stepLoop`, with the same fuel semantics. -/
def stepXs (slope : ℚ) (startX startY endX endY step_x dx dy two_error : ℤ) :
    ℕ → ℤ → Option (List ℤ)
  | 0, _ => none
  | fuel + 1, x =>
      if x = endX ∧ pyRound (slope * ((x : ℚ) - (startX : ℚ)) + (startY : ℚ)) = endY then
        some [x]
      else
        (stepXs slope startX startY endX endY step_x dx dy two_error fuel
            (if two_error > -dy then x + step_x else x)).map
          fun xs => x :: xs

/-- The nine pixels the stepper emits for the steep descending line from
`(0, 4)` to `(2, 1)` with width 3 (used below as a concrete evaluation). -/
def c2Pixels : List Cmd :=
  [.setPixel 0 3 0, .setPixel 0 4 0, .setPixel 0 5 0,
   .setPixel 1 1 0, .setPixel 1 2 0, .setPixel 1 3 0,
   .setPixel 2 0 0, .setPixel 2 1 0, .setPixel 2 2 0]

/-! Helper lemmas shared by several claims. -/

instance {ε α : Type} [DecidableEq ε] [DecidableEq α] : DecidableEq (Except ε α)
  | .error a, .error b => decidable_of_iff (a = b) (by simp)
  | .error _, .ok _ => isFalse (by simp)
  | .ok _, .error _ => isFalse (by simp)
  | .ok a, .ok b => decidable_of_iff (a = b) (by simp)

@[simp]
lemma ok_bind {ε α β : Type} (a : α) (f : α → Except ε β) :
    (Except.ok a >>= f : Except ε β) = f a := rfl

lemma except_bind_ok {ε α β : Type} (x : Except ε α) (f : α → Except ε β) (r : β) :
    (x >>= f) = .ok r ↔ ∃ a, x = .ok a ∧ f a = .ok r := by
  cases x <;> simp [Bind.bind, Except.bind]

/-- CLAIM C9: `change_fill()` negates the boolean fill flag and changes no
other field of the `Rect`; it emits no drawing command (in the model it is a
pure field update, mirroring the single assignment `self.fill = not
self.fill` in the source, which draws nothing), and a second call restores
the original rectangle, so the new value is only consulted by the next
`display()`. -/
theorem c9_change_fill (r : Rect) :
    (r.change_fill).fill = !r.fill ∧
    (r.change_fill).width = r.width ∧
    (r.change_fill).height = r.height ∧
    (r.change_fill).border_color = r.border_color ∧
    (r.change_fill).borderwidth = r.borderwidth ∧
    (r.change_fill).antialiasing = r.antialiasing ∧
    (r.change_fill).fill_color = r.fill_color ∧
    (r.change_fill).top_left = r.top_left ∧
    (r.change_fill).top_right = r.top_right ∧
    (r.change_fill).bottom_left = r.bottom_left ∧
    (r.change_fill).bottom_right = r.bottom_right ∧
    (r.change_fill).top_edge = r.top_edge ∧
    (r.change_fill).bottom_edge = r.bottom_edge ∧
    (r.change_fill).left_edge = r.left_edge ∧
    (r.change_fill).right_edge = r.right_edge ∧
    r.change_fill.change_fill = r := by
  refine ⟨rfl, rfl, rfl, rfl, rfl, rfl, rfl, rfl, rfl, rfl, rfl, rfl, rfl, rfl, rfl, ?_⟩
  simp [Rect.change_fill]

/-- CLAIM C8: constructing a `Line` with zero, negative or non-integer width
fails with the validation error, and constructing a `Rect` fails whenever
`width`, `height` or `borderwidth` is not a strictly positive integer; every
successfully constructed object satisfies the positivity invariant, so no
invalid object is observable. -/
theorem c8_width_validation :
    (∀ (start endPt : Coordinate) (color : Color) (w : PyNum),
        w.val ≤ 0 ∨ w.isInt = false →
        mkLine start endPt color w = .error .valueError) ∧
    (∀ (tl : Coordinate) (w h bw : PyNum) (bc fc : Color) (aa f : Bool),
        w.val ≤ 0 ∨ w.isInt = false ∨ h.val ≤ 0 ∨ h.isInt = false ∨
          bw.val ≤ 0 ∨ bw.isInt = false →
        mkRect tl w h bc bw aa f fc = .error .valueError) ∧
    (∀ (start endPt : Coordinate) (color : Color) (w : PyNum) (l : Line),
        mkLine start endPt color w = .ok l → 0 < l.width) ∧
    (∀ (tl : Coordinate) (w h bw : PyNum) (bc fc : Color) (aa f : Bool) (r : Rect),
        mkRect tl w h bc bw aa f fc = .ok r →
        0 < r.width ∧ 0 < r.height ∧ 0 < r.borderwidth) := by
  refine ⟨?_, ?_, ?_, ?_⟩
  · intro start endPt color w hw
    rw [mkLine.eq_def, if_pos hw]
  · intro tl w h bw bc fc aa f hbad
    rw [mkRect.eq_def]
    by_cases h1 : w.val ≤ 0 ∨ w.isInt = false
    · rw [if_pos h1]
    rw [if_neg h1]
    by_cases h2 : h.val ≤ 0 ∨ h.isInt = false
    · rw [if_pos h2]
    rw [if_neg h2]
    by_cases h3 : bw.val ≤ 0 ∨ bw.isInt = false
    · rw [if_pos h3]
    · tauto
  · intro start endPt color w l hmk
    rw [mkLine.eq_def] at hmk
    split at hmk
    · cases hmk
    · rename_i hcond
      push_neg at hcond
      split at hmk
      · rename_i wz
        cases hmk
        have : ¬ ((wz : ℚ) ≤ 0) := by simpa [PyNum.val] using hcond.1
        exact_mod_cast not_le.mp this
      · cases hmk
  · intro tl w h bw bc fc aa f r hmk
    rw [mkRect.eq_def] at hmk
    split at hmk
    · cases hmk
    split at hmk
    · cases hmk
    split at hmk
    · cases hmk
    rename_i hc1 hc2 hc3
    push_neg at hc1 hc2 hc3
    split at hmk
    · rename_i wz hz bwz
      simp only [except_bind_ok] at hmk
      obtain ⟨_, _, _, _, _, _, _, _, _, _, _, _, _, _, hmk⟩ := hmk
      cases hmk
      refine ⟨?_, ?_, ?_⟩
      · have : ¬ ((wz : ℚ) ≤ 0) := by simpa [PyNum.val] using hc1.1
        exact_mod_cast not_le.mp this
      · have : ¬ ((hz : ℚ) ≤ 0) := by simpa [PyNum.val] using hc2.1
        exact_mod_cast not_le.mp this
      · have : ¬ ((bwz : ℚ) ≤ 0) := by simpa [PyNum.val] using hc3.1
        exact_mod_cast not_le.mp this
    · cases hmk

/-- Witness for C8 at concrete inputs: a `Line` of width `0` and a `Rect`
whose width is the non-integer `5/2` are both rejected. -/
theorem c8_witness :
    mkLine ⟨0, 0⟩ ⟨1, 1⟩ ⟨0, 0, 0, none, [], 0⟩ (.int 0) = .error .valueError ∧
    mkRect ⟨0, 0⟩ (.float (5 / 2)) (.int 10) ⟨0, 0, 0, none, [], 0⟩ (.int 1) false false
      ⟨0, 0, 0, none, [], 0⟩ = .error .valueError :=
  ⟨c8_width_validation.1 _ _ _ _ (Or.inl (by norm_num [PyNum.val])),
   c8_width_validation.2.1 _ _ _ _ _ _ _ _ (Or.inr (Or.inl rfl))⟩

/-- CLAIM C10: for equal `x` coordinates (including the degenerate point
segment) `Line` construction succeeds with the slope set to the undefined
sentinel — the guarded division never fails — and `display` takes the
vertical fast path: exactly one `fillRect` of height `end.y - start.y`
(zero for a degenerate point), for any fuel. -/
theorem c10_vertical_safe (start endPt : Coordinate) (color : Color) (w : ℤ)
    (hw : 0 < w) (hx : start.x = endPt.x) :
    ∃ l : Line,
      mkLine start endPt color (.int w) = .ok l ∧ l.slope = none ∧
      ∀ fuel : ℕ,
        l.display fuel =
          some (.ok [Cmd.fillRect start.x start.y w (endPt.y - start.y) color.colorref]) := by
  have hcond : ¬ ((PyNum.int w).val ≤ 0 ∨ (PyNum.int w).isInt = false) := by
    push_neg
    refine ⟨by simp [PyNum.val]; exact_mod_cast hw, by simp [PyNum.isInt]⟩
  have hslope : ((endPt.x : ℚ) - (start.x : ℚ) = 0) := by
    rw [hx, sub_self]
  refine ⟨⟨start, endPt, color, w, w / 2, none⟩, ?_, rfl, ?_⟩
  · rw [mkLine, if_neg hcond]
    simp [hslope]
  · intro fuel
    rfl

/-- Witness for C10 at a concrete degenerate segment `(5,5) → (5,5)`. -/
theorem c10_witness :
    ∃ l : Line,
      mkLine ⟨5, 5⟩ ⟨5, 5⟩ ⟨0, 0, 0, none, [], 0⟩ (.int 1) = .ok l ∧ l.slope = none ∧
      ∀ fuel : ℕ, l.display fuel = some (.ok [Cmd.fillRect 5 5 1 (5 - 5) 0]) :=
  c10_vertical_safe ⟨5, 5⟩ ⟨5, 5⟩ ⟨0, 0, 0, none, [], 0⟩ 1 (by norm_num) rfl

/-- CLAIM C5: for channels in `[0,255]` the packed value of an rgb color is
`(b <<< 16) ||| (g <<< 8) ||| r`, and supplying any alpha in `[0,255]` yields
the same packed value — alpha is never encoded. -/
theorem c5_color_packed (r g b a : ℤ)
    (hr : 0 ≤ r ∧ r ≤ 255) (hg : 0 ≤ g ∧ g ≤ 255) (hb : 0 ≤ b ∧ b ≤ 255)
    (ha : 0 ≤ a ∧ a ≤ 255) :
    ∃ c c' : Color,
      mkColor [.int r, .int g, .int b] = .ok c ∧
      c.colorref = ((b.toNat <<< 16) ||| (g.toNat <<< 8)) ||| r.toNat ∧
      mkColor [.int r, .int g, .int b, .int a] = .ok c' ∧
      c'.colorref = c.colorref := by
  have hcond :
      ¬ ((PyNum.int r).val > 255 ∨ (PyNum.int r).val < 0 ∨ (PyNum.int g).val > 255 ∨
         (PyNum.int g).val < 0 ∨ (PyNum.int b).val > 255 ∨ (PyNum.int b).val < 0) := by
    push_neg
    simp only [PyNum.val, not_lt]
    exact ⟨by exact_mod_cast hr.2, by exact_mod_cast hr.1, by exact_mod_cast hg.2,
           by exact_mod_cast hg.1, by exact_mod_cast hb.2, by exact_mod_cast hb.1⟩
  have hconda : ¬ ((PyNum.int a).val > 255 ∨ (PyNum.int a).val < 0) := by
    push_neg
    simp only [PyNum.val, not_lt]
    exact ⟨by exact_mod_cast ha.2, by exact_mod_cast ha.1⟩
  have hmod : generate_colorref r g b = ((b.toNat <<< 16) ||| (g.toNat <<< 8)) ||| r.toNat := by
    rw [generate_colorref]
    apply Nat.mod_eq_of_lt
    have h16 : b.toNat <<< 16 < 2 ^ 32 := by
      rw [Nat.shiftLeft_eq]
      have : b.toNat ≤ 255 := by omega
      calc b.toNat * 2 ^ 16 ≤ 255 * 2 ^ 16 := by
            exact Nat.mul_le_mul_right _ this
        _ < 2 ^ 32 := by norm_num
    have h8 : g.toNat <<< 8 < 2 ^ 32 := by
      rw [Nat.shiftLeft_eq]
      have : g.toNat ≤ 255 := by omega
      calc g.toNat * 2 ^ 8 ≤ 255 * 2 ^ 8 := by
            exact Nat.mul_le_mul_right _ this
        _ < 2 ^ 32 := by norm_num
    have hrr : r.toNat < 2 ^ 32 := by omega
    exact Nat.or_lt_two_pow (Nat.or_lt_two_pow h16 h8) hrr
  refine ⟨⟨r, g, b, none, [.int r, .int g, .int b], generate_colorref r g b⟩,
          ⟨r, g, b, some (.int a), [.int r, .int g, .int b, .int a],
            generate_colorref r g b⟩, ?_, hmod, ?_, rfl⟩
  · rw [mkColor, if_neg hcond]; rfl
  · rw [mkColor, if_neg hcond, if_neg hconda]; rfl

/-- Witness for C5 at the concrete color `(1, 2, 3)` with alpha `4`. -/
theorem c5_witness :
    ∃ c c' : Color,
      mkColor [.int 1, .int 2, .int 3] = .ok c ∧
      c.colorref = (((3 : ℤ).toNat <<< 16) ||| ((2 : ℤ).toNat <<< 8)) ||| (1 : ℤ).toNat ∧
      mkColor [.int 1, .int 2, .int 3, .int 4] = .ok c' ∧
      c'.colorref = c.colorref :=
  c5_color_packed 1 2 3 4 (by norm_num) (by norm_num) (by norm_num) (by norm_num)

/-- CLAIM C7: the hex constructor rejects every string whose length is not 6
or 8 and every string with a character outside `[0-9A-Fa-f]`; on valid input
it reads two hex digits per channel, so `FF000080` gives `r = 255`, `g = 0`,
`b = 0` with alpha `128` stored but not packed (the packed value is `255`,
encoding only r, g, b), and `00FF00` gives `g = 255` with `r = b = 0`. -/
theorem c7_from_hex :
    (∀ s : List Char, s.length ≠ 6 → s.length ≠ 8 →
        from_hex_code s = .error .valueError) ∧
    (∀ s : List Char, (∃ c ∈ s, isHexChar c = false) →
        from_hex_code s = .error .valueError) ∧
    from_hex_code ['F', 'F', '0', '0', '0', '0', '8', '0'] =
      .ok ⟨255, 0, 0, some (.int 128), [.int 255, .int 0, .int 0, .int 128], 255⟩ ∧
    from_hex_code ['0', '0', 'F', 'F', '0', '0'] =
      .ok ⟨0, 255, 0, none, [.int 0, .int 255, .int 0], 65280⟩ := by
  refine ⟨?_, ?_, by decide, by decide⟩
  · intro s h6 h8
    rw [from_hex_code, if_pos ⟨h8, h6⟩]
  · rintro s ⟨c, hc, hbad⟩
    by_cases hlen : s.length ≠ 8 ∧ s.length ≠ 6
    · rw [from_hex_code, if_pos hlen]
    · have hall : ¬ (s.all isHexChar = true) := by
        intro h
        rw [List.all_eq_true] at h
        exact absurd (h c hc) (by simp [hbad])
      rw [from_hex_code, if_neg hlen, if_pos hall]

/-- Witness for C7 at concrete rejected inputs: a 3-character string, and a
6-character string containing the non-hex character `G`. -/
theorem c7_witness :
    from_hex_code ['F', 'F', 'F'] = .error .valueError ∧
    from_hex_code ['0', '0', 'F', 'G', '0', '0'] = .error .valueError :=
  ⟨c7_from_hex.1 _ (by decide) (by decide),
   c7_from_hex.2.1 _ ⟨'G', by decide, by decide⟩⟩

/-- Counterexample for C6: `Color((0, 0, 0, 0.5))` constructs successfully —
the sequence contains the non-integer channel value `1/2`, which lies inside
`[0, 255]`, yet construction does not fail, because the alpha entry never
reaches the bit-shifting expression that rejects float channels. -/
theorem c6_counterexample :
    mkColor [.int 0, .int 0, .int 0, .float (1 / 2)] =
      .ok ⟨0, 0, 0, some (.float (1 / 2)), [.int 0, .int 0, .int 0, .float (1 / 2)], 0⟩ ∧
    (PyNum.float (1 / 2)).isInt = false ∧
    (0 : ℚ) ≤ (PyNum.float (1 / 2)).val ∧ (PyNum.float (1 / 2)).val ≤ 255 := by
  refine ⟨?_, rfl, by norm_num [PyNum.val], by norm_num [PyNum.val]⟩
  rw [mkColor, if_neg (by norm_num [PyNum.val]), if_neg (by norm_num [PyNum.val])]
  rfl

/-- AMENDED C6: construction succeeds exactly when the sequence has length 3
or 4, the first three channel values are integers in `[0, 255]`, and the
alpha value (when present) lies in `[0, 255]` — a non-integer `r`, `g` or `b`
makes construction fail (with a type error at the packing step rather than
the validation error), but a non-integer alpha inside `[0, 255]` is accepted
and stored. -/
theorem c6_amended (color : List PyNum) :
    (∃ c : Color, mkColor color = .ok c) ↔
      ((color.length = 3 ∨ color.length = 4) ∧
       (∀ ch ∈ color.take 3, ch.isInt = true ∧ 0 ≤ ch.val ∧ ch.val ≤ 255) ∧
       (∀ ch ∈ color.drop 3, 0 ≤ ch.val ∧ ch.val ≤ 255)) := by
  match color with
  | [] => simp [mkColor.eq_def]
  | [c0] => simp [mkColor.eq_def]
  | [c0, c1] => simp [mkColor.eq_def]
  | [c0, c1, c2] =>
    by_cases hcond : (c0.val > 255 ∨ c0.val < 0 ∨ c1.val > 255 ∨ c1.val < 0 ∨
        c2.val > 255 ∨ c2.val < 0)
    · rw [mkColor, if_pos hcond]
      constructor
      · rintro ⟨c, h⟩; cases h
      · rintro ⟨-, h3, -⟩
        have h0 := h3 c0 (by simp)
        have h1 := h3 c1 (by simp)
        have h2 := h3 c2 (by simp)
        rcases hcond with h | h | h | h | h | h <;>
          linarith [h0.2.1, h0.2.2, h1.2.1, h1.2.2, h2.2.1, h2.2.2]
    · rw [mkColor, if_neg hcond]
      push_neg at hcond
      obtain ⟨k0, k1, k2, k3, k4, k5⟩ := hcond
      rcases c0 with a | a <;> rcases c1 with b | b <;> rcases c2 with d | d <;>
        simp only [PyNum.val] at k0 k1 k2 k3 k4 k5 <;>
        simp [packChannels, PyNum.val, PyNum.isInt]
      exact ⟨⟨by exact_mod_cast k1, k0⟩, ⟨by exact_mod_cast k3, k2⟩,
        by exact_mod_cast k5, k4⟩
  | [c0, c1, c2, c3] =>
    by_cases hcond : (c0.val > 255 ∨ c0.val < 0 ∨ c1.val > 255 ∨ c1.val < 0 ∨
        c2.val > 255 ∨ c2.val < 0)
    · rw [mkColor, if_pos hcond]
      constructor
      · rintro ⟨c, h⟩; cases h
      · rintro ⟨-, h3, -⟩
        have h0 := h3 c0 (by simp)
        have h1 := h3 c1 (by simp)
        have h2 := h3 c2 (by simp)
        rcases hcond with h | h | h | h | h | h <;>
          linarith [h0.2.1, h0.2.2, h1.2.1, h1.2.2, h2.2.1, h2.2.2]
    · rw [mkColor, if_neg hcond]
      push_neg at hcond
      obtain ⟨k0, k1, k2, k3, k4, k5⟩ := hcond
      by_cases hconda : (c3.val > 255 ∨ c3.val < 0)
      · rw [if_pos hconda]
        constructor
        · rintro ⟨c, h⟩; cases h
        · rintro ⟨-, -, h3⟩
          have ha := h3 c3 (by simp)
          rcases hconda with h | h <;> linarith [ha.1, ha.2]
      · rw [if_neg hconda]
        push_neg at hconda
        rcases c0 with a | a <;> rcases c1 with b | b <;> rcases c2 with d | d <;>
          simp only [PyNum.val] at k0 k1 k2 k3 k4 k5 <;>
          simp [packChannels, PyNum.val, PyNum.isInt]
        exact ⟨⟨⟨by exact_mod_cast k1, k0⟩, ⟨by exact_mod_cast k3, k2⟩,
          by exact_mod_cast k5, k4⟩, hconda.2, hconda.1⟩
  | c0 :: c1 :: c2 :: c3 :: c4 :: rest =>
    rw [mkColor.eq_def]
    constructor
    · rintro ⟨c, h⟩; cases h
    · rintro ⟨h, -, -⟩
      simp only [List.length_cons] at h
      omega

/-- Witness for the amended C6: the characterization applied at the concrete
color `(1, 2, 3)`. -/
theorem c6_amended_witness :
    ∃ c : Color, mkColor [.int 1, .int 2, .int 3] = .ok c :=
  (c6_amended [.int 1, .int 2, .int 3]).mpr
    ⟨Or.inl rfl, by norm_num [PyNum.val, PyNum.isInt], by norm_num⟩

/-- Counterexample for C3: the vertical line from `(0, 10)` down to `(0, 0)`
(reversed endpoint order) issues its single `fillRect` at `(0, 10)` with the
signed height `-10`, which is not the bounding box of the segment (that would
be height `10`). -/
theorem c3_counterexample :
    (mkLine ⟨0, 10⟩ ⟨0, 0⟩ ⟨0, 0, 0, none, [], 0⟩ (.int 1)).toOption.map
        (fun l => l.display 1) =
      some (some (.ok [Cmd.fillRect 0 10 1 (-10) 0])) ∧
    Cmd.fillRect 0 10 1 (-10) 0 ≠ Cmd.fillRect 0 0 1 10 0 := by
  constructor
  · have hmk : mkLine ⟨0, 10⟩ ⟨0, 0⟩ ⟨0, 0, 0, none, [], 0⟩ (.int 1) =
        .ok ⟨⟨0, 10⟩, ⟨0, 0⟩, ⟨0, 0, 0, none, [], 0⟩, 1, 0, none⟩ := by
      rw [mkLine, if_neg (by norm_num [PyNum.val, PyNum.isInt])]
      norm_num
    rw [hmk]
    rfl
  · decide

/-- AMENDED C3: a vertical (slope undefined) or horizontal (slope zero) line
issues exactly one `fillRect` and no `setPixel`; the rectangle is anchored at
`start` with the line's width as perpendicular extent and the signed length
`end - start` along the line's axis, so it spans the segment's bounding box
when the endpoints are in increasing order and has negative (empty) extent
when they are reversed. -/
theorem c3_amended (start endPt : Coordinate) (color : Color) (wp : PyNum) (l : Line)
    (hmk : mkLine start endPt color wp = .ok l) (fuel : ℕ) :
    (start.x = endPt.x →
        l.display fuel =
          some (.ok [Cmd.fillRect start.x start.y l.width (endPt.y - start.y)
            color.colorref])) ∧
    (start.x ≠ endPt.x → start.y = endPt.y →
        l.display fuel =
          some (.ok [Cmd.fillRect start.x start.y (endPt.x - start.x) l.width
            color.colorref])) := by
  rw [mkLine.eq_def] at hmk
  split at hmk
  · cases hmk
  split at hmk
  · rename_i wz
    cases hmk
    constructor
    · intro hx
      have hs : ((endPt.x : ℚ) - (start.x : ℚ)) = 0 := by rw [hx, sub_self]
      simp [Line.display, hs]
    · intro hx hy
      have hs : ((endPt.x : ℚ) - (start.x : ℚ)) ≠ 0 := by
        rw [sub_ne_zero]
        exact fun h => hx (by exact_mod_cast h.symm)
      have hnum : ((endPt.y : ℚ) - (start.y : ℚ)) = 0 := by rw [hy, sub_self]
      simp [Line.display, hs, hnum, zero_div]
  · cases hmk

/-- Witness for the amended C3: the spec's own example, a horizontal line
from `(0, 0)` to `(10, 0)` of width 1, issues exactly one `fillRect`. -/
theorem c3_amended_witness :
    Line.display ⟨⟨0, 0⟩, ⟨10, 0⟩, ⟨0, 0, 0, none, [], 0⟩, 1, 0, some 0⟩ 1 =
      some (.ok [Cmd.fillRect 0 0 (10 - 0) 1 0]) := by
  have hmk : mkLine ⟨0, 0⟩ ⟨10, 0⟩ ⟨0, 0, 0, none, [], 0⟩ (.int 1) =
      .ok ⟨⟨0, 0⟩, ⟨10, 0⟩, ⟨0, 0, 0, none, [], 0⟩, 1, 0, some 0⟩ := by
    rw [mkLine, if_neg (by norm_num [PyNum.val, PyNum.isInt])]
    norm_num
  exact (c3_amended ⟨0, 0⟩ ⟨10, 0⟩ ⟨0, 0, 0, none, [], 0⟩ (.int 1) _ hmk 1).2
    (by decide) rfl

/-- For the line from `(0, 0)` to `(1, 2)` (slope `2`, radius `0`) the loop
constants are `dx = 1`, `dy = 2`, `two_error = 2 * (dx - dy) = -2`: the guard
`two_error > -dy` is `-2 > -2`, permanently false because `two_error` is
never recomputed, so `x` never advances from `0`, every band is the single
valid pixel `(0, 0)` (so the coordinate validation never raises), and the
break test `x = end.x` (with `end.x = 1`) never fires — for every fuel, any
`y`, `error` and accumulator, the loop has not finished. -/
lemma c1_loop_never_terminates (fuel : ℕ) :
    ∀ (y e : ℤ) (acc : List (ℤ × ℤ)),
      stepLoop 2 0 0 0 1 2 1 1 1 2 (-2) fuel 0 y e acc = none := by
  induction fuel with
  | zero => intro y e acc; rfl
  | succ n ih =>
      intro y e acc
      rw [stepLoop]
      norm_num [pyRound, bandAt, List.range_succ]
      exact ih _ _ _

/-- CLAIM C1 (code bug): constructing the steep line from `(0, 0)` to
`(1, 2)` with width 1 succeeds and routes to the thick stepper (slope `2` is
defined and non-zero), but `display` never terminates: for every fuel the
stepping loop is still running, contradicting the claim that the loop stops
at `end` within `dx` or `dy` iterations.  The loop diverges for every line
with `dy ≥ 2 * dx` because `two_error` is computed once before the loop and
never updated. -/
theorem c1_bug (fuel : ℕ) :
    (mkLine ⟨0, 0⟩ ⟨1, 2⟩ ⟨0, 0, 0, none, [], 0⟩ (.int 1)).toOption.map
      (fun l => l.display fuel) = some none := by
  have hmk : mkLine ⟨0, 0⟩ ⟨1, 2⟩ ⟨0, 0, 0, none, [], 0⟩ (.int 1) =
      .ok ⟨⟨0, 0⟩, ⟨1, 2⟩, ⟨0, 0, 0, none, [], 0⟩, 1, 0, some 2⟩ := by
    rw [mkLine, if_neg (by norm_num [PyNum.val, PyNum.isInt])]
    norm_num
  rw [hmk]
  show some (Line.display _ fuel) = some none
  congr 1
  rw [Line.display]
  norm_num
  rw [c1_loop_never_terminates]

/-- CLAIM C4: a `Rect` displays its four edges first (each an axis-aligned
line, hence a single `fillRect`), then exactly one `borderwidth × borderwidth`
corner patch at the bottom-right corner in the border color, then exactly one
interior `fillRect` if and only if the fill flag is set, placed at
`(top_left.x + borderwidth, top_left.y + borderwidth)` with size
`(width - borderwidth) × (height - borderwidth)` in the fill color. -/
theorem c4_rect_display (tl : Coordinate) (w h bw : ℤ) (bc fc : Color) (aa f : Bool)
    (fuel : ℕ) (hx : 0 ≤ tl.x) (hy : 0 ≤ tl.y) (hw : 0 < w) (hh : 0 < h) (hbw : 0 < bw) :
    ∃ r : Rect,
      mkRect tl (.int w) (.int h) bc (.int bw) aa f fc = .ok r ∧
      r.display fuel =
        some (.ok
          ([Cmd.fillRect tl.x tl.y w bw bc.colorref,
            Cmd.fillRect tl.x (tl.y + h) w bw bc.colorref,
            Cmd.fillRect tl.x tl.y bw h bc.colorref,
            Cmd.fillRect (tl.x + w) tl.y bw h bc.colorref,
            Cmd.fillRect (tl.x + w) (tl.y + h) bw bw bc.colorref] ++
           (if f then
             [Cmd.fillRect (tl.x + bw) (tl.y + bw) (w - bw) (h - bw) fc.colorref]
            else []))) := by
  have hwq : ¬ ((PyNum.int w).val ≤ 0 ∨ (PyNum.int w).isInt = false) := by
    push_neg
    exact ⟨by simp only [PyNum.val, not_le]; exact_mod_cast hw, by simp [PyNum.isInt]⟩
  have hhq : ¬ ((PyNum.int h).val ≤ 0 ∨ (PyNum.int h).isInt = false) := by
    push_neg
    exact ⟨by simp only [PyNum.val, not_le]; exact_mod_cast hh, by simp [PyNum.isInt]⟩
  have hbwq : ¬ ((PyNum.int bw).val ≤ 0 ∨ (PyNum.int bw).isInt = false) := by
    push_neg
    exact ⟨by simp only [PyNum.val, not_le]; exact_mod_cast hbw, by simp [PyNum.isInt]⟩
  have hTR : mkCoordinate (tl.x + w) tl.y = .ok ⟨tl.x + w, tl.y⟩ := by
    rw [mkCoordinate, if_neg (by push_neg; omega)]
  have hBL : mkCoordinate tl.x (tl.y + h) = .ok ⟨tl.x, tl.y + h⟩ := by
    rw [mkCoordinate, if_neg (by push_neg; omega)]
  have hBR : mkCoordinate (tl.x + w) (tl.y + h) = .ok ⟨tl.x + w, tl.y + h⟩ := by
    rw [mkCoordinate, if_neg (by push_neg; omega)]
  have hTE : mkLine tl ⟨tl.x + w, tl.y⟩ bc (.int bw) =
      .ok ⟨tl, ⟨tl.x + w, tl.y⟩, bc, bw, bw / 2, some 0⟩ := by
    rw [mkLine, if_neg hbwq]
    simp [hw.ne']
  have hBE : mkLine ⟨tl.x, tl.y + h⟩ ⟨tl.x + w, tl.y + h⟩ bc (.int bw) =
      .ok ⟨⟨tl.x, tl.y + h⟩, ⟨tl.x + w, tl.y + h⟩, bc, bw, bw / 2, some 0⟩ := by
    rw [mkLine, if_neg hbwq]
    simp [hw.ne']
  have hLE : mkLine tl ⟨tl.x, tl.y + h⟩ bc (.int bw) =
      .ok ⟨tl, ⟨tl.x, tl.y + h⟩, bc, bw, bw / 2, none⟩ := by
    rw [mkLine, if_neg hbwq]
    simp
  have hRE : mkLine ⟨tl.x + w, tl.y⟩ ⟨tl.x + w, tl.y + h⟩ bc (.int bw) =
      .ok ⟨⟨tl.x + w, tl.y⟩, ⟨tl.x + w, tl.y + h⟩, bc, bw, bw / 2, none⟩ := by
    rw [mkLine, if_neg hbwq]
    simp
  refine ⟨⟨w, h, bc, bw, aa, f, fc, tl, ⟨tl.x + w, tl.y⟩, ⟨tl.x, tl.y + h⟩,
      ⟨tl.x + w, tl.y + h⟩,
      ⟨tl, ⟨tl.x + w, tl.y⟩, bc, bw, bw / 2, some 0⟩,
      ⟨⟨tl.x, tl.y + h⟩, ⟨tl.x + w, tl.y + h⟩, bc, bw, bw / 2, some 0⟩,
      ⟨tl, ⟨tl.x, tl.y + h⟩, bc, bw, bw / 2, none⟩,
      ⟨⟨tl.x + w, tl.y⟩, ⟨tl.x + w, tl.y + h⟩, bc, bw, bw / 2, none⟩⟩, ?_, ?_⟩
  · rw [mkRect, if_neg hwq, if_neg hhq, if_neg hbwq]
    simp only [hTR, hBL, hBR, ok_bind]
    simp only [hTE, hBE, hLE, hRE, ok_bind]
  · have dTE : Line.display ⟨tl, ⟨tl.x + w, tl.y⟩, bc, bw, bw / 2, some 0⟩ fuel =
        some (.ok [Cmd.fillRect tl.x tl.y w bw bc.colorref]) := by
      simp [Line.display]
    have dBE : Line.display
          ⟨⟨tl.x, tl.y + h⟩, ⟨tl.x + w, tl.y + h⟩, bc, bw, bw / 2, some 0⟩ fuel =
        some (.ok [Cmd.fillRect tl.x (tl.y + h) w bw bc.colorref]) := by
      simp [Line.display]
    have dLE : Line.display ⟨tl, ⟨tl.x, tl.y + h⟩, bc, bw, bw / 2, none⟩ fuel =
        some (.ok [Cmd.fillRect tl.x tl.y bw h bc.colorref]) := by
      simp [Line.display]
    have dRE : Line.display
          ⟨⟨tl.x + w, tl.y⟩, ⟨tl.x + w, tl.y + h⟩, bc, bw, bw / 2, none⟩ fuel =
        some (.ok [Cmd.fillRect (tl.x + w) tl.y bw h bc.colorref]) := by
      simp [Line.display]
    simp [Rect.display, runBind, dTE, dBE, dLE, dRE]

/-- Witness for C4: the spec's own example, a `10 × 10` rectangle with
`borderwidth = 1` and `fill = false` at the origin. -/
theorem c4_witness :
    ∃ r : Rect,
      mkRect ⟨0, 0⟩ (.int 10) (.int 10) ⟨0, 0, 0, none, [], 0⟩ (.int 1) false false
          ⟨0, 0, 0, none, [], 0⟩ = .ok r ∧
      r.display 1 =
        some (.ok
          ([Cmd.fillRect 0 0 10 1 0,
            Cmd.fillRect 0 (0 + 10) 10 1 0,
            Cmd.fillRect 0 0 1 10 0,
            Cmd.fillRect (0 + 10) 0 1 10 0,
            Cmd.fillRect (0 + 10) (0 + 10) 1 1 0] ++
           (if false then [Cmd.fillRect (0 + 1) (0 + 1) (10 - 1) (10 - 1) 0] else []))) :=
  c4_rect_display ⟨0, 0⟩ 10 10 1 ⟨0, 0, 0, none, [], 0⟩ ⟨0, 0, 0, none, [], 0⟩ false false 1
    (by norm_num) (by norm_num) (by norm_num) (by norm_num) (by norm_num)

/-- The band the source emits is exactly the specification-side `axisBand`
centered on the computed point, along the x axis precisely when the signed
slope exceeds 1. -/
lemma bandAt_eq_axisBand (slope : ℚ) (radius x yLine : ℤ) :
    bandAt slope radius x yLine = axisBand (x, yLine) radius (decide (1 < slope)) := by
  simp [bandAt, axisBand]

/-- A successful stepper run decomposes into one band per stepped position:
when `stepLoop` finishes without raising, `stepXs` finishes on the same fuel
and the accumulated coordinates are exactly the bands centered on the
computed points `(x, round(slope * (x - start.x) + start.y))`, thickened
along the x axis exactly when `slope > 1` (the signed comparison the source
performs).  Runs on which `Coordinate.__init__` raises (a band pixel with a
negative component) return an error instead and are not covered. -/
lemma stepLoop_ok_decomp {slope : ℚ}
    {radius startX startY endX endY step_x step_y dx dy two_error : ℤ} :
    ∀ (fuel : ℕ) (x y e : ℤ) (acc coords : List (ℤ × ℤ)),
      stepLoop slope radius startX startY endX endY step_x step_y dx dy two_error
          fuel x y e acc = some (.ok coords) →
      ∃ xs : List ℤ,
        stepXs slope startX startY endX endY step_x dx dy two_error fuel x = some xs ∧
        coords = acc ++ xs.flatMap fun px =>
          axisBand (px, pyRound (slope * ((px : ℚ) - (startX : ℚ)) + (startY : ℚ)))
            radius (decide (1 < slope)) := by
  intro fuel
  induction fuel with
  | zero => intro x y e acc coords h; cases h
  | succ n ih =>
    intro x y e acc coords h
    rw [stepXs]
    rw [stepLoop] at h
    dsimp only at h
    split at h
    · simp at h
    · split at h
      · rename_i hbreak
        rw [if_pos hbreak]
        simp only [Option.some.injEq, Except.ok.injEq] at h
        refine ⟨[x], rfl, ?_⟩
        rw [← h]
        simp [bandAt_eq_axisBand]
      · rename_i hbreak
        rw [if_neg hbreak]
        obtain ⟨xs, hxs, hcoords⟩ := ih _ _ _ _ _ h
        have hproj :
            (if two_error > -dy then (e - dy, x + step_x) else (e, x)).2 =
              (if two_error > -dy then x + step_x else x) := by
          by_cases hc : two_error > -dy <;> simp [hc]
        rw [hproj] at hxs
        refine ⟨x :: xs, ?_, ?_⟩
        · rw [hxs]
          rfl
        · rw [hcoords]
          simp [bandAt_eq_axisBand, List.append_assoc]

/-- A band always holds exactly `2 * radius + 1` pixels. -/
lemma axisBand_length (c : ℤ × ℤ) (radius : ℤ) (ax : Bool) :
    (axisBand c radius ax).length = (2 * radius + 1).toNat := by
  rw [axisBand, List.length_map, List.length_range]

/-- A band contains its center (the computed point), for any non-negative
radius. -/
lemma axisBand_center_mem (c : ℤ × ℤ) (radius : ℤ) (ax : Bool) (hr : 0 ≤ radius) :
    c ∈ axisBand c radius ax := by
  rw [axisBand]
  refine List.mem_map.mpr ⟨radius.toNat, List.mem_range.mpr ?_, ?_⟩
  · omega
  · have hcast : ((radius.toNat : ℤ)) = radius := Int.toNat_of_nonneg hr
    rcases c with ⟨cx, cy⟩
    cases ax <;> simp [hcast]

/-- A finished `stepXs` run always visited at least one position. -/
lemma stepXs_ne_nil {slope : ℚ} {startX startY endX endY step_x dx dy two_error : ℤ}
    {fuel : ℕ} {x : ℤ} {xs : List ℤ}
    (h : stepXs slope startX startY endX endY step_x dx dy two_error fuel x = some xs) :
    xs ≠ [] := by
  cases fuel with
  | zero => cases h
  | succ n =>
      rw [stepXs] at h
      split at h
      · cases h; simp
      · obtain ⟨ys, -, rfl⟩ := Option.map_eq_some'.mp h
        simp

/-- Counterexample for C2: the line from `(0, 4)` to `(2, 1)` with width 3 has
slope `-3/2`, whose absolute value exceeds 1, yet every band is offset along
the y axis — at the first stepped position the computed point is `(0, 4)` and
the emitted band is `(0,3), (0,4), (0,5)` (so `(0,5)` is drawn), not the
x-offset band `(-1,4), (0,4), (1,4)` the claim requires (so `(1,4)` is never
drawn).  The source tests `slope > 1`, not `|slope| > 1`. -/
theorem c2_counterexample :
    (mkLine ⟨0, 4⟩ ⟨2, 1⟩ ⟨0, 0, 0, none, [], 0⟩ (.int 3)).toOption.map
        (fun l => (l.slope, l.radius, l.display 5)) =
      some (some (-(3 / 2) : ℚ), 1, some (.ok c2Pixels)) ∧
    1 < |(-(3 / 2) : ℚ)| ∧
    Cmd.setPixel 0 5 0 ∈ c2Pixels ∧
    Cmd.setPixel 1 4 0 ∉ c2Pixels := by
  refine ⟨?_, by rw [abs_neg, abs_of_pos] <;> norm_num, by decide, by decide⟩
  have hmk : mkLine ⟨0, 4⟩ ⟨2, 1⟩ ⟨0, 0, 0, none, [], 0⟩ (.int 3) =
      .ok ⟨⟨0, 4⟩, ⟨2, 1⟩, ⟨0, 0, 0, none, [], 0⟩, 3, 1, some (-(3 / 2))⟩ := by
    rw [mkLine, if_neg (by norm_num [PyNum.val, PyNum.isInt])]
    norm_num
  rw [hmk]
  have hdisp : Line.display
      ⟨⟨0, 4⟩, ⟨2, 1⟩, ⟨0, 0, 0, none, [], 0⟩, 3, 1, some (-(3 / 2))⟩ 5 =
        some (.ok c2Pixels) := by
    rw [Line.display]
    norm_num [stepLoop, pyRound, bandAt, c2Pixels, List.range_succ]
    decide
  simp [Except.toOption, hdisp]

/-- AMENDED C2: for every line on the thick-stepper path whose loop finishes,
the emitted pixels are exactly one band per stepped position, each band being
the `2 * radius + 1` pixels centered on the computed point
`(x, round(slope * (x - start.x) + start.y))`, offset along the x axis when
the signed slope exceeds 1 and along the y axis otherwise — so steep lines of
negative slope are thickened along y, unlike what the claim (which uses the
absolute value of the slope) states. -/
theorem c2_amended (l : Line) (s : ℚ) (fuel : ℕ) (cmds : List Cmd)
    (hs : l.slope = some s) (hs0 : s ≠ 0) (hrun : l.display fuel = some (.ok cmds)) :
    ∃ xs : List ℤ, xs ≠ [] ∧
      cmds = xs.flatMap (fun px =>
        (axisBand (px, pyRound (s * ((px : ℚ) - (l.start.x : ℚ)) + (l.start.y : ℚ)))
            l.radius (decide (1 < s))).map
          fun c => Cmd.setPixel c.1 c.2 l.color.colorref) ∧
      ∀ (p : ℤ × ℤ) (ax : Bool), 0 ≤ l.radius →
        (axisBand p l.radius ax).length = (2 * l.radius + 1).toNat ∧
        p ∈ axisBand p l.radius ax := by
  rw [Line.display, hs] at hrun
  dsimp only at hrun
  rw [if_neg hs0] at hrun
  split at hrun
  · cases hrun
  · simp at hrun
  · rename_i coords hcoords
    simp only [Option.some.injEq, Except.ok.injEq] at hrun
    subst hrun
    obtain ⟨xs, hxs, rfl⟩ := stepLoop_ok_decomp _ _ _ _ _ _ hcoords
    refine ⟨xs, stepXs_ne_nil hxs, ?_, ?_⟩
    · simp [List.map_flatMap]
    · exact fun p ax hr =>
        ⟨axisBand_length p l.radius ax, axisBand_center_mem p l.radius ax hr⟩

/-- Witness for the amended C2 at the shallow line from `(0, 0)` to `(2, 1)`
of width 1 (slope `1/2`, radius 0), whose loop finishes within fuel 5 and
emits the pixels `(0,0), (1,0), (2,1)`. -/
theorem c2_amended_witness :
    ∃ xs : List ℤ, xs ≠ [] ∧
      [Cmd.setPixel 0 0 0, Cmd.setPixel 1 0 0, Cmd.setPixel 2 1 0] =
        xs.flatMap (fun px =>
          (axisBand (px, pyRound ((1 / 2 : ℚ) * ((px : ℚ) - ((0 : ℤ) : ℚ)) + ((0 : ℤ) : ℚ)))
              0 (decide (1 < (1 / 2 : ℚ)))).map
            fun c => Cmd.setPixel c.1 c.2 0) ∧
      ∀ (p : ℤ × ℤ) (ax : Bool), (0 : ℤ) ≤ 0 →
        (axisBand p 0 ax).length = ((2 * 0 + 1 : ℤ)).toNat ∧ p ∈ axisBand p 0 ax :=
  c2_amended ⟨⟨0, 0⟩, ⟨2, 1⟩, ⟨0, 0, 0, none, [], 0⟩, 1, 0, some (1 / 2)⟩ (1 / 2) 5
    [Cmd.setPixel 0 0 0, Cmd.setPixel 1 0 0, Cmd.setPixel 2 1 0]
    rfl (by norm_num)
    (by
      rw [Line.display]
      norm_num [stepLoop, pyRound, bandAt, List.range_succ])

end Rendering
